import Mathlib

/-!
# Verification of the MikroTik Ping Exporter (src/main.py)

Shallow embedding of the exporter's prober, output parser and SSH
connection pool, with theorems settling the specification claims.

Modelling conventions:
* Python strings are `String` / `List Char`; the parser works on `List Char`.
* Python floats are modelled as rationals (`ℚ`); the divisions by 1000
  performed by the code are exact at this level of abstraction.
* The regular-expression searches of `_parse_ping_output` are embedded as
  deterministic character scanners.  For each of the three patterns used by
  the code every quantifier boundary is between disjoint character classes,
  so greedy maximal-munch scanning is equivalent to Python's backtracking
  search; the scanners below implement exactly that leftmost maximal-munch
  semantics, including the `re.MULTILINE` treatment of `^`.
* Wall-clock durations are parameters of the embedded operations.
-/

namespace MikrotikPingExporter

/-! ## Character classes (Python `\d`, `\s`, `[\d.]` on ASCII output) -/

def isDigitChar (c : Char) : Bool := c.isDigit

def isSpaceChar (c : Char) : Bool :=
  c = ' ' || c = '\t' || c = '\n' || c = '\r' || c = '\x0b' || c = '\x0c'

/-- Character class `[\d.]` used for the host column of the v6 output. -/
def isHostChar (c : Char) : Bool := c.isDigit || c = '.'

/-! ## Substring containment (Python `sub in s`) -/

/-- Predicate: `pat` occurs at the very start of `s`. -/
def leadsWith : List Char → List Char → Bool
  | [], _ => true
  | _ :: _, [] => false
  | p :: ps, c :: cs => p = c && leadsWith ps cs

/-- Predicate: `pat` occurs somewhere in `s` (Python `pat in s`). -/
def hasSub (pat : List Char) : List Char → Bool
  | [] => leadsWith pat []
  | c :: rest => leadsWith pat (c :: rest) || hasSub pat rest

/-! ## Numeric decoding (Python `int`, `float` on captured groups) -/

/-- Decimal value of a digit string (Python `int` on a `\d+` capture). -/
def natOfDigits (ds : List Char) : Nat :=
  ds.foldl (fun a c => a * 10 + (c.toNat - 48)) 0

def notDot (c : Char) : Bool := c ≠ '.'

/-- Value of a `\d+\.?\d*` capture (Python `float`), as a rational. -/
def ratOfNum (ds : List Char) : ℚ :=
  match ds.dropWhile notDot with
  | [] => (natOfDigits (ds.takeWhile notDot) : ℚ)
  | _ :: frac => (natOfDigits (ds.takeWhile notDot) : ℚ) + (natOfDigits frac : ℚ) / (10 ^ frac.length)

/-- Python `str.strip()` on ASCII text. -/
def stripChars (cs : List Char) : List Char :=
  ((cs.dropWhile isSpaceChar).reverse.dropWhile isSpaceChar).reverse

def stripString (s : String) : String := ⟨stripChars s.data⟩

/-! ## The v6 pattern `^\s*\d+\s+[\d.]+\s+(\d+)\s+(\d+)\s+(\d+)ms`
    (`re.search` with `re.MULTILINE`) -/

/-- Scan one maximal nonempty token of characters satisfying `p` (the
embedding of a `p+` regex atom on a class disjoint from what follows):
return the token and the remainder, or `none` when the token is empty. -/
def scanTok (p : Char → Bool) (cs : List Char) : Option (List Char × List Char) :=
  if cs.takeWhile p = [] then none else some (cs.takeWhile p, cs.dropWhile p)

/-- Attempt the v6 pattern at one position (a line start); on success return
the three captured groups `(size digits, ttl digits, rtt digits)`.  The
token boundaries of the pattern are between disjoint character classes, so
the pattern is the sequential composition of maximal-munch scans:
`\s*`, `\d+`, `\s+`, then `[\d.]+`, `\s+`, `(\d+)`, `\s+`, `(\d+)`, `\s+`,
`(\d+)` and the literal `ms`. -/
def matchV6At (cs : List Char) : Option (List Char × List Char × List Char) :=
  match scanTok isDigitChar (cs.dropWhile isSpaceChar) with
  | none => none
  | some (_, cs2) =>
    match scanTok isSpaceChar cs2 with
    | none => none
    | some (_, cs3) =>
      match scanTok isHostChar cs3 with
      | none => none
      | some (_, cs4) =>
        match scanTok isSpaceChar cs4 with
        | none => none
        | some (_, cs5) =>
          match scanTok isDigitChar cs5 with
          | none => none
          | some (g1, cs6) =>
            match scanTok isSpaceChar cs6 with
            | none => none
            | some (_, cs7) =>
              match scanTok isDigitChar cs7 with
              | none => none
              | some (g2, cs8) =>
                match scanTok isSpaceChar cs8 with
                | none => none
                | some (_, cs9) =>
                  match scanTok isDigitChar cs9 with
                  | none => none
                  | some (g3, cs10) =>
                    match cs10 with
                    | 'm' :: 's' :: _ => some (g1, g2, g3)
                    | _ => none

/-- Leftmost multiline search: try the pattern at every line start, in
order.  The flag records whether the current position is a line start. -/
def searchV6Aux : Bool → List Char → Option (List Char × List Char × List Char)
  | _, [] => none
  | atStart, c :: rest =>
    if atStart then
      match matchV6At (c :: rest) with
      | some g => some g
      | none => searchV6Aux (c = '\n') rest
    else searchV6Aux (c = '\n') rest

def searchV6 (cs : List Char) : Option (List Char × List Char × List Char) :=
  searchV6Aux true cs

/-! ## The v7 patterns `time=(\d+\.?\d*)ms` and `ttl=(\d+)` (`re.search`) -/

/-- Attempt the number part `(\d+\.?\d*)ms` right after a `time=` literal;
return the captured number characters. -/
def matchTimeNum (rest : List Char) : Option (List Char) :=
  let d1 := rest.takeWhile isDigitChar
  if d1 = [] then none else
  match rest.dropWhile isDigitChar with
  | '.' :: r2 =>
    (match r2.dropWhile isDigitChar with
     | 'm' :: 's' :: _ => some (d1 ++ '.' :: r2.takeWhile isDigitChar)
     | _ => none)
  | 'm' :: 's' :: _ => some d1
  | _ => none

def searchTime : List Char → Option (List Char)
  | [] => none
  | c :: rest =>
    match c :: rest with
    | 't' :: 'i' :: 'm' :: 'e' :: '=' :: tl =>
      (match matchTimeNum tl with
       | some g => some g
       | none => searchTime rest)
    | _ => searchTime rest

def searchTtl : List Char → Option (List Char)
  | [] => none
  | c :: rest =>
    match c :: rest with
    | 't' :: 't' :: 'l' :: '=' :: tl =>
      (let d := tl.takeWhile isDigitChar
       if d = [] then searchTtl rest else some d)
    | _ => searchTtl rest

/-! ## The probe result record and the output parser -/

/-- The dictionary returned by `ping_target` / `_parse_ping_output`. -/
structure PingResult where
  rtt_sec : ℚ
  up : Nat
  ttl : Nat
  size : Nat
  duration : ℚ
  deriving DecidableEq, Repr

/-- The four parsed fields before the `duration` is attached. -/
structure RawFields where
  rtt_sec : ℚ
  ttl : Nat
  size : Nat
  up : Nat
  deriving DecidableEq, Repr

/-- The `elif rtt_match_v7: ... else: ...` part of the parser. -/
def v7_fields (o : List Char) : RawFields :=
  match searchTime o with
  | some num =>
    { rtt_sec := ratOfNum num / 1000
      ttl := ((searchTtl o).map natOfDigits).getD 0
      size := 56
      up := 1 }
  | none => { rtt_sec := 0, ttl := 0, size := 0, up := 0 }

def timeoutChars : List Char := "timeout".data

def noRouteChars : List Char := "no route to host".data

def ttlExceededChars : List Char := "ttl-exceeded".data

/-- The `if/elif/else` chain of `_parse_ping_output`, before the
unreachability override. -/
def fields_pre_override (o : List Char) : RawFields :=
  match searchV6 o with
  | some (s, t, r) =>
    if hasSub ttlExceededChars o
    then v7_fields o
    else { rtt_sec := (natOfDigits r : ℚ) / 1000, ttl := natOfDigits t, size := natOfDigits s, up := 1 }
  | none => v7_fields o

/-- Model of `MikroTikPingProber._parse_ping_output`. -/
def parse_ping_output (output : String) (duration : ℚ) : PingResult :=
  { rtt_sec := (fields_pre_override output.data).rtt_sec
    up := if hasSub timeoutChars output.data || hasSub noRouteChars output.data then 0
          else (fields_pre_override output.data).up
    ttl := (fields_pre_override output.data).ttl
    size := (fields_pre_override output.data).size
    duration := duration }

/-- Model of `MikroTikPingProber._error_result`. -/
def error_result (duration : ℚ) : PingResult :=
  { rtt_sec := 0, up := 0, ttl := 0, size := 0, duration := duration }

/-- The parser with the v6 dialect branch removed: the `elif/else` part
followed by the unreachability override.  Used to state that outputs
containing `ttl-exceeded` fall through to the v7 dialect or unreachable. -/
def parse_skip_v6 (output : String) (duration : ℚ) : PingResult :=
  { rtt_sec := (v7_fields output.data).rtt_sec
    up := if hasSub timeoutChars output.data || hasSub noRouteChars output.data then 0
          else (v7_fields output.data).up
    ttl := (v7_fields output.data).ttl
    size := (v7_fields output.data).size
    duration := duration }

/-- The command string built by `ping_target` (an f-string in the source). -/
def ping_command (target_ip : String) : String := "/ping " ++ target_ip ++ " count=1"

/-! ## SSH sessions and the connection pool

A `MikroTikSSHConnection` carries the connection parameters and an optional
paramiko client handle.  The handle is abstracted to the one bit the code
ever inspects: whether its transport is active (`is_active`).  `ssh = none`
models Python's `self.ssh = None`. -/

structure MikroTikSSHConnection where
  host : String
  alt_host : Option String
  user : String
  password : String
  port : Nat
  ssh : Option Bool
  deriving DecidableEq, Repr

/-- Model of `MikroTikSSHConnection.is_active`: truthy handle whose
transport is active. -/
def is_active (c : MikroTikSSHConnection) : Bool := c.ssh.getD false

/-- Constructor parameters of `MikroTikSSHConnectionPool`. -/
structure PoolParams where
  host : String
  alt_host : Option String
  user : String
  password : String
  ssh_port : Nat
  max_connections : Nat
  deriving DecidableEq, Repr

/-- Model of `MikroTikSSHConnectionPool._create_connection`: a fresh, not
yet connected session with the pool's parameters (`__init__` sets
`self.ssh = None`). -/
def create_connection (p : PoolParams) : MikroTikSSHConnection :=
  { host := p.host, alt_host := p.alt_host, user := p.user
    password := p.password, port := p.ssh_port, ssh := none }

/-- The acquisition half of `MikroTikSSHConnectionPool.connection`:
`dequeued` is the session obtained by `get_nowait` (`none` when the queue
was empty and `queue.Empty` was raised); the result is the session yielded
to the caller. -/
def acquire_connection (p : PoolParams) (dequeued : Option MikroTikSSHConnection) :
    MikroTikSSHConnection :=
  let conn := dequeued.getD (create_connection p)
  if is_active conn then conn else create_connection p

/-! ## Transport environment and `ping_target`

The outcomes of the two possible `paramiko` connect attempts, the pool
state, and the bytes produced by the router are the environment of one
probe. -/

structure ExecEnv where
  dequeued : Option MikroTikSSHConnection
  primaryOk : Bool
  altOk : Bool
  stdoutText : String
  stderrText : String

/-- Python truthiness of the `alt_host` argument (`None` and `""` are
falsy). -/
def altTruthy : Option String → Bool
  | none => false
  | some a => a ≠ ""

/-- Model of `MikroTikSSHConnection.connect`: the handle after the connect
attempt.
Every exception of the primary attempt is caught; the alternate host is
tried when truthy; on total failure `self.ssh = None`. -/
def connect_ssh (c : MikroTikSSHConnection) (env : ExecEnv) : Option Bool :=
  if env.primaryOk then some true
  else if altTruthy c.alt_host then
    (if env.altOk then some true else none)
  else none

/-- Model of `MikroTikSSHConnection.exec_command`: reconnect when inactive, then
either return the command's streams or raise `ConnectionError` (the only
exception this method raises; `connect` swallows all of its own). -/
def exec_command (c : MikroTikSSHConnection) (env : ExecEnv) :
    Except Unit (String × String) :=
  let c2 := if is_active c then c else { c with ssh := connect_ssh c env }
  match c2.ssh with
  | some _ => .ok (env.stdoutText, env.stderrText)
  | none => .error ()

/-- The transport outcome seen by `ping_target`: execute the command on the
session handed out by the pool. -/
def exec_outcome (p : PoolParams) (env : ExecEnv) : Except Unit (String × String) :=
  exec_command (acquire_connection p env.dequeued) env

/-- Model of `MikroTikPingProber.ping_target`: on `ConnectionError` return
`_error_result` with the elapsed time, otherwise parse the stripped
standard output.  `durFail` and `durOk` are the elapsed wall times at the
two `time.time()` differences taken by the code. -/
def ping_target (p : PoolParams) (env : ExecEnv) (durFail durOk : ℚ) : PingResult :=
  match exec_outcome p env with
  | .error _ => error_result durFail
  | .ok (out, _err) => parse_ping_output (stripString out) durOk

/-! ## Specification-side definitions used to state claims

The following `claim…` propositions transcribe claims of the specification
verbatim, to be proved or refuted; they are deliberately written from the
spec's words, not from the source. -/

/-- A dialect-A reply line: sequence number, host, then the size, ttl and
rtt columns, the rtt column ending in the literal `ms`; `tail` is whatever
follows on the line and the rest of the output. -/
def v6_line (seq host s t r tail : List Char) : List Char :=
  seq ++ ' ' :: (host ++ ' ' :: (s ++ ' ' :: (t ++ ' ' :: (r ++ 'm' :: 's' :: tail))))

/-- Specification-side definition (the source has no footer parsing): the
`received=<n>` count of the summary footer described by the spec's
burst-sample mode, extracted from the raw output. -/
def specSearchReceived : List Char → Option Nat
  | [] => none
  | c :: rest =>
    match c :: rest with
    | 'r' :: 'e' :: 'c' :: 'e' :: 'i' :: 'v' :: 'e' :: 'd' :: '=' :: tl =>
      (let d := tl.takeWhile isDigitChar
       if d = [] then specSearchReceived rest else some (natOfDigits d))
    | _ => specSearchReceived rest

/-- Claim C1 as stated by the specification: whenever the parser reports
reachability 0, the rtt, ttl and size fields are all zero, so no field
other than the reachability flag distinguishes a failed probe. -/
def claimC1 : Prop :=
  ∀ (out : String) (d : ℚ),
    (parse_ping_output out d).up = 0 →
    (parse_ping_output out d).rtt_sec = 0 ∧
    (parse_ping_output out d).ttl = 0 ∧
    (parse_ping_output out d).size = 0

/-- Claim C3 as stated by the specification: for every resolved address,
requested sample count and burst rate, the command string contains the
address, the decimal sample count, and the decimal inter-packet interval
`max 10 (1000 / burst)` milliseconds. -/
def claimC3 : Prop :=
  ∀ (ip : String) (count burst : Nat), 0 < burst →
    hasSub ip.data (ping_command ip).data = true ∧
    hasSub (Nat.repr count).data (ping_command ip).data = true ∧
    hasSub (Nat.repr (max 10 (1000 / burst))).data (ping_command ip).data = true

/-- Claim C4's footer clause as stated by the specification: when the
output carries a summary footer, the probe is reported reachable exactly
when the footer's received count is positive. -/
def claimC4 : Prop :=
  ∀ (out : String) (d : ℚ) (n : Nat),
    specSearchReceived out.data = some n →
    ((parse_ping_output out d).up = 1 ↔ 0 < n)

/-- Claim C7 as stated by the specification: whenever the dialect-A pattern
does not fire (or fired but was rejected for `ttl-exceeded`) and a
`time=<num>ms` substring is present, the parser reports the dialect-B
fields with reachable = 1 — with no exception for the unreachability
override. -/
def claimC7 : Prop :=
  ∀ (out : String) (d : ℚ) (num : List Char),
    (searchV6 out.data = none ∨ hasSub ttlExceededChars out.data = true) →
    searchTime out.data = some num →
    parse_ping_output out d =
      { rtt_sec := ratOfNum num / 1000, up := 1
        ttl := ((searchTtl out.data).map natOfDigits).getD 0
        size := 56, duration := d }

/-! ## Helper lemmas: character classes -/

lemma not_space_of_digit {c : Char} (h : isDigitChar c = true) : isSpaceChar c = false := by
  unfold isSpaceChar
  simp only [Bool.or_eq_false_iff, decide_eq_false_iff_not]
  refine ⟨⟨⟨⟨⟨?_, ?_⟩, ?_⟩, ?_⟩, ?_⟩, ?_⟩ <;>
    (intro he; subst he; exact absurd h (by decide))

lemma not_space_of_host {c : Char} (h : isHostChar c = true) : isSpaceChar c = false := by
  unfold isHostChar at h
  rcases Bool.or_eq_true_iff.mp h with hd | hdot
  · exact not_space_of_digit hd
  · have : c = '.' := by simpa using hdot
    subst this; decide

lemma not_digit_space : isDigitChar ' ' = false := by decide

lemma host_of_digit {c : Char} (h : isDigitChar c = true) : isHostChar c = true := by
  unfold isHostChar; unfold isDigitChar at h; simp [h]

/-! ## Helper lemmas: takeWhile / dropWhile scanning -/

lemma takeWhile_append_stop (p : Char → Bool) (l : List Char) (c : Char) (r : List Char)
    (hl : ∀ x ∈ l, p x = true) (hc : p c = false) :
    (l ++ c :: r).takeWhile p = l := by
  induction l with
  | nil => simp [List.takeWhile, hc]
  | cons a as ih =>
    have ha : p a = true := hl a (List.mem_cons_self a as)
    simp only [List.cons_append, List.takeWhile_cons, ha, if_true]
    rw [ih (fun x hx => hl x (List.mem_cons_of_mem a hx))]

lemma dropWhile_append_stop (p : Char → Bool) (l : List Char) (c : Char) (r : List Char)
    (hl : ∀ x ∈ l, p x = true) (hc : p c = false) :
    (l ++ c :: r).dropWhile p = c :: r := by
  induction l with
  | nil => simp [List.dropWhile, hc]
  | cons a as ih =>
    have ha : p a = true := hl a (List.mem_cons_self a as)
    simp only [List.cons_append, List.dropWhile_cons, ha, if_true]
    exact ih (fun x hx => hl x (List.mem_cons_of_mem a hx))

lemma dropWhile_cons_false (p : Char → Bool) (c : Char) (r : List Char) (hc : p c = false) :
    (c :: r).dropWhile p = c :: r := by
  simp [List.dropWhile_cons, hc]

lemma takeWhile_cons_true (p : Char → Bool) (c : Char) (r : List Char) (hc : p c = true) :
    (c :: r).takeWhile p = c :: r.takeWhile p := by
  simp [List.takeWhile_cons, hc]

lemma takeWhile_cons_false (p : Char → Bool) (c : Char) (r : List Char) (hc : p c = false) :
    (c :: r).takeWhile p = [] := by
  simp [List.takeWhile_cons, hc]

lemma scanTok_chunk (p : Char → Bool) (l : List Char) (c : Char) (r : List Char)
    (hl : ∀ x ∈ l, p x = true) (hc : p c = false) (hne : l ≠ []) :
    scanTok p (l ++ c :: r) = some (l, c :: r) := by
  unfold scanTok
  rw [takeWhile_append_stop p l c r hl hc, dropWhile_append_stop p l c r hl hc]
  simp [hne]

lemma scanTok_one_space (c : Char) (cs : List Char) (hc : isSpaceChar c = false) :
    scanTok isSpaceChar (' ' :: c :: cs) = some ([' '], c :: cs) := by
  unfold scanTok
  rw [takeWhile_cons_true _ _ _ (by decide), takeWhile_cons_false _ _ _ hc]
  rw [List.dropWhile_cons]
  simp only [show isSpaceChar ' ' = true by decide, if_true]
  rw [dropWhile_cons_false _ _ _ hc]
  simp

/-! ## Helper lemmas: substring containment -/

lemma leadsWith_refl_append (l r : List Char) : leadsWith l (l ++ r) = true := by
  induction l with
  | nil => rfl
  | cons a as ih => simpa [leadsWith] using ih

lemma hasSub_cons_of (pat : List Char) (c : Char) (rest : List Char)
    (h : hasSub pat rest = true) : hasSub pat (c :: rest) = true := by
  simp [hasSub, h]

lemma hasSub_of_leadsWith (pat l : List Char) (h : leadsWith pat l = true) : hasSub pat l = true := by
  cases l with
  | nil => simpa [hasSub] using h
  | cons c rest => simp [hasSub, h]

lemma hasSub_mid (pat pre post : List Char) : hasSub pat (pre ++ pat ++ post) = true := by
  induction pre with
  | nil =>
    simp only [List.nil_append]
    exact hasSub_of_leadsWith pat (pat ++ post) (leadsWith_refl_append pat post)
  | cons a as ih =>
    simp only [List.cons_append]
    exact hasSub_cons_of _ _ _ (by simpa using ih)

lemma hasSub_append_right (pat l r : List Char) (h : hasSub pat r = true) :
    hasSub pat (l ++ r) = true := by
  induction l with
  | nil => simpa using h
  | cons a as ih => exact hasSub_cons_of _ _ _ ih

lemma hasSub_self (pat : List Char) : hasSub pat pat = true :=
  hasSub_of_leadsWith pat pat (by simpa using leadsWith_refl_append pat [])

/-! ## Helper lemmas: evaluating the v6 scanner on a well-formed reply line -/

lemma matchV6At_eval (a : Char) (l1 : List Char) (b : Char) (l2 : List Char)
    (c0 : Char) (l3 : List Char) (d0 : Char) (l4 : List Char) (e0 : Char) (l5 tail : List Char)
    (hseqD : ∀ c ∈ a :: l1, isDigitChar c = true)
    (hhostD : ∀ c ∈ b :: l2, isHostChar c = true)
    (hsD : ∀ c ∈ c0 :: l3, isDigitChar c = true)
    (htD : ∀ c ∈ d0 :: l4, isDigitChar c = true)
    (hrD : ∀ c ∈ e0 :: l5, isDigitChar c = true) :
    matchV6At (v6_line (a :: l1) (b :: l2) (c0 :: l3) (d0 :: l4) (e0 :: l5) tail)
      = some (c0 :: l3, d0 :: l4, e0 :: l5) := by
  have haD : isDigitChar a = true := hseqD a (List.mem_cons_self _ _)
  have hbH : isHostChar b = true := hhostD b (List.mem_cons_self _ _)
  have hcD : isDigitChar c0 = true := hsD c0 (List.mem_cons_self _ _)
  have hdD : isDigitChar d0 = true := htD d0 (List.mem_cons_self _ _)
  have heD : isDigitChar e0 = true := hrD e0 (List.mem_cons_self _ _)
  have h9 : scanTok isDigitChar ((e0 :: l5) ++ 'm' :: 's' :: tail)
      = some (e0 :: l5, 'm' :: 's' :: tail) :=
    scanTok_chunk _ _ _ _ hrD (by decide) (by simp)
  have h8 : scanTok isSpaceChar (' ' :: (e0 :: l5) ++ 'm' :: 's' :: tail)
      = some ([' '], (e0 :: l5) ++ 'm' :: 's' :: tail) := by
    simpa using scanTok_one_space e0 (l5 ++ 'm' :: 's' :: tail) (not_space_of_digit heD)
  have h7 : scanTok isDigitChar ((d0 :: l4) ++ ' ' :: (e0 :: l5) ++ 'm' :: 's' :: tail)
      = some (d0 :: l4, ' ' :: (e0 :: l5) ++ 'm' :: 's' :: tail) := by
    simpa using scanTok_chunk isDigitChar (d0 :: l4) ' '
      ((e0 :: l5) ++ 'm' :: 's' :: tail) htD not_digit_space (by simp)
  have h6 : scanTok isSpaceChar (' ' :: (d0 :: l4) ++ ' ' :: (e0 :: l5) ++ 'm' :: 's' :: tail)
      = some ([' '], (d0 :: l4) ++ ' ' :: (e0 :: l5) ++ 'm' :: 's' :: tail) := by
    simpa using scanTok_one_space d0
      (l4 ++ ' ' :: (e0 :: l5) ++ 'm' :: 's' :: tail) (not_space_of_digit hdD)
  have h5 : scanTok isDigitChar
      ((c0 :: l3) ++ ' ' :: (d0 :: l4) ++ ' ' :: (e0 :: l5) ++ 'm' :: 's' :: tail)
      = some (c0 :: l3, ' ' :: (d0 :: l4) ++ ' ' :: (e0 :: l5) ++ 'm' :: 's' :: tail) := by
    simpa using scanTok_chunk isDigitChar (c0 :: l3) ' '
      ((d0 :: l4) ++ ' ' :: (e0 :: l5) ++ 'm' :: 's' :: tail) hsD not_digit_space (by simp)
  have h4 : scanTok isSpaceChar
      (' ' :: (c0 :: l3) ++ ' ' :: (d0 :: l4) ++ ' ' :: (e0 :: l5) ++ 'm' :: 's' :: tail)
      = some ([' '], (c0 :: l3) ++ ' ' :: (d0 :: l4) ++ ' ' :: (e0 :: l5) ++ 'm' :: 's' :: tail) := by
    simpa using scanTok_one_space c0
      (l3 ++ ' ' :: (d0 :: l4) ++ ' ' :: (e0 :: l5) ++ 'm' :: 's' :: tail)
      (not_space_of_digit hcD)
  have h3 : scanTok isHostChar
      ((b :: l2) ++ ' ' :: (c0 :: l3) ++ ' ' :: (d0 :: l4) ++ ' ' :: (e0 :: l5) ++ 'm' :: 's' :: tail)
      = some (b :: l2,
          ' ' :: (c0 :: l3) ++ ' ' :: (d0 :: l4) ++ ' ' :: (e0 :: l5) ++ 'm' :: 's' :: tail) := by
    simpa using scanTok_chunk isHostChar (b :: l2) ' '
      ((c0 :: l3) ++ ' ' :: (d0 :: l4) ++ ' ' :: (e0 :: l5) ++ 'm' :: 's' :: tail)
      hhostD (by decide) (by simp)
  have h2 : scanTok isSpaceChar
      (' ' :: (b :: l2) ++ ' ' :: (c0 :: l3) ++ ' ' :: (d0 :: l4) ++ ' ' :: (e0 :: l5) ++ 'm' :: 's' :: tail)
      = some ([' '],
          (b :: l2) ++ ' ' :: (c0 :: l3) ++ ' ' :: (d0 :: l4) ++ ' ' :: (e0 :: l5) ++ 'm' :: 's' :: tail) := by
    simpa using scanTok_one_space b
      (l2 ++ ' ' :: (c0 :: l3) ++ ' ' :: (d0 :: l4) ++ ' ' :: (e0 :: l5) ++ 'm' :: 's' :: tail)
      (not_space_of_host hbH)
  have h1 : scanTok isDigitChar
      ((a :: l1) ++ ' ' :: (b :: l2) ++ ' ' :: (c0 :: l3) ++ ' ' :: (d0 :: l4) ++ ' ' :: (e0 :: l5) ++ 'm' :: 's' :: tail)
      = some (a :: l1,
          ' ' :: (b :: l2) ++ ' ' :: (c0 :: l3) ++ ' ' :: (d0 :: l4) ++ ' ' :: (e0 :: l5) ++ 'm' :: 's' :: tail) := by
    simpa using scanTok_chunk isDigitChar (a :: l1) ' '
      ((b :: l2) ++ ' ' :: (c0 :: l3) ++ ' ' :: (d0 :: l4) ++ ' ' :: (e0 :: l5) ++ 'm' :: 's' :: tail)
      hseqD not_digit_space (by simp)
  have h0 : List.dropWhile isSpaceChar
      ((a :: l1) ++ ' ' :: (b :: l2) ++ ' ' :: (c0 :: l3) ++ ' ' :: (d0 :: l4) ++ ' ' :: (e0 :: l5) ++ 'm' :: 's' :: tail)
      = (a :: l1) ++ ' ' :: (b :: l2) ++ ' ' :: (c0 :: l3) ++ ' ' :: (d0 :: l4) ++ ' ' :: (e0 :: l5) ++ 'm' :: 's' :: tail := by
    simpa using dropWhile_cons_false isSpaceChar a
      (l1 ++ ' ' :: (b :: l2) ++ ' ' :: (c0 :: l3) ++ ' ' :: (d0 :: l4) ++ ' ' :: (e0 :: l5) ++ 'm' :: 's' :: tail)
      (not_space_of_digit haD)
  have hline : v6_line (a :: l1) (b :: l2) (c0 :: l3) (d0 :: l4) (e0 :: l5) tail
      = (a :: l1) ++ ' ' :: (b :: l2) ++ ' ' :: (c0 :: l3) ++ ' ' :: (d0 :: l4) ++ ' ' :: (e0 :: l5) ++ 'm' :: 's' :: tail := by
    simp [v6_line]
  simp only [matchV6At, hline, h0, h1, h2, h3, h4, h5, h6, h7, h8, h9]

lemma searchV6_v6_line (seq host s t r tail : List Char)
    (hseq : seq ≠ []) (hseqD : ∀ c ∈ seq, isDigitChar c = true)
    (hhost : host ≠ []) (hhostD : ∀ c ∈ host, isHostChar c = true)
    (hs : s ≠ []) (hsD : ∀ c ∈ s, isDigitChar c = true)
    (ht : t ≠ []) (htD : ∀ c ∈ t, isDigitChar c = true)
    (hr : r ≠ []) (hrD : ∀ c ∈ r, isDigitChar c = true) :
    searchV6 (v6_line seq host s t r tail) = some (s, t, r) := by
  obtain ⟨a, l1, rfl⟩ : ∃ a l, seq = a :: l := by
    cases seq with
    | nil => exact absurd rfl hseq
    | cons a l => exact ⟨a, l, rfl⟩
  obtain ⟨b, l2, rfl⟩ : ∃ b l, host = b :: l := by
    cases host with
    | nil => exact absurd rfl hhost
    | cons b l => exact ⟨b, l, rfl⟩
  obtain ⟨c0, l3, rfl⟩ : ∃ c l, s = c :: l := by
    cases s with
    | nil => exact absurd rfl hs
    | cons c l => exact ⟨c, l, rfl⟩
  obtain ⟨d0, l4, rfl⟩ : ∃ c l, t = c :: l := by
    cases t with
    | nil => exact absurd rfl ht
    | cons c l => exact ⟨c, l, rfl⟩
  obtain ⟨e0, l5, rfl⟩ : ∃ c l, r = c :: l := by
    cases r with
    | nil => exact absurd rfl hr
    | cons c l => exact ⟨c, l, rfl⟩
  have hm := matchV6At_eval a l1 b l2 c0 l3 d0 l4 e0 l5 tail hseqD hhostD hsD htD hrD
  have hline : v6_line (a :: l1) (b :: l2) (c0 :: l3) (d0 :: l4) (e0 :: l5) tail
      = a :: (l1 ++ ' ' :: ((b :: l2) ++ ' ' :: ((c0 :: l3) ++ ' ' :: ((d0 :: l4) ++ ' ' :: ((e0 :: l5) ++ 'm' :: 's' :: tail))))) := by
    simp [v6_line]
  have hm' : matchV6At
      (a :: (l1 ++ ' ' :: ((b :: l2) ++ ' ' :: ((c0 :: l3) ++ ' ' :: ((d0 :: l4) ++ ' ' :: ((e0 :: l5) ++ 'm' :: 's' :: tail))))))
      = some (c0 :: l3, d0 :: l4, e0 :: l5) := by
    rw [← hline]; exact hm
  unfold searchV6
  rw [hline]
  simp only [searchV6Aux, hm', if_true]

/-! ## Helper lemmas: the parser's branches -/

lemma parse_eval_v6 (out : String) (d : ℚ) (s t r : List Char)
    (h6 : searchV6 out.data = some (s, t, r))
    (hx : hasSub ttlExceededChars out.data = false)
    (ht : hasSub timeoutChars out.data = false)
    (hn : hasSub noRouteChars out.data = false) :
    parse_ping_output out d =
      { rtt_sec := (natOfDigits r : ℚ) / 1000, up := 1, ttl := natOfDigits t
        size := natOfDigits s, duration := d } := by
  unfold parse_ping_output fields_pre_override
  rw [h6]
  simp [hx, ht, hn]

lemma parse_eval_v7 (out : String) (d : ℚ) (num : List Char)
    (h6 : searchV6 out.data = none ∨ hasSub ttlExceededChars out.data = true)
    (h7 : searchTime out.data = some num)
    (ht : hasSub timeoutChars out.data = false)
    (hn : hasSub noRouteChars out.data = false) :
    parse_ping_output out d =
      { rtt_sec := ratOfNum num / 1000, up := 1
        ttl := ((searchTtl out.data).map natOfDigits).getD 0
        size := 56, duration := d } := by
  unfold parse_ping_output fields_pre_override v7_fields
  rcases h6 with h6 | h6
  · rw [h6, h7]
    simp [ht, hn]
  · cases hv : searchV6 out.data with
    | none => rw [h7]; simp [ht, hn]
    | some g =>
      obtain ⟨s, t, r⟩ := g
      rw [h7]
      simp [h6, ht, hn]

lemma parse_of_ttl_exceeded (out : String) (d : ℚ)
    (hx : hasSub ttlExceededChars out.data = true) :
    parse_ping_output out d = parse_skip_v6 out d := by
  unfold parse_ping_output parse_skip_v6 fields_pre_override
  cases hv : searchV6 out.data with
  | none => rfl
  | some g =>
    obtain ⟨s, t, r⟩ := g
    simp [hx]

lemma v7_fields_up (o : List Char) : (v7_fields o).up = 0 ∨ (v7_fields o).up = 1 := by
  unfold v7_fields
  cases searchTime o <;> simp

lemma fields_pre_override_up (o : List Char) :
    (fields_pre_override o).up = 0 ∨ (fields_pre_override o).up = 1 := by
  unfold fields_pre_override
  cases searchV6 o with
  | none => exact v7_fields_up o
  | some g =>
    obtain ⟨s, t, r⟩ := g
    by_cases hx : hasSub ttlExceededChars o = true
    · simpa [hx] using v7_fields_up o
    · simp [hx]

lemma v7_fields_zero (o : List Char) (h : (v7_fields o).up = 0) :
    v7_fields o = { rtt_sec := 0, ttl := 0, size := 0, up := 0 } := by
  unfold v7_fields at h ⊢
  cases hs : searchTime o with
  | none => rfl
  | some num => rw [hs] at h; simp at h

lemma fields_pre_override_zero (o : List Char) (h : (fields_pre_override o).up = 0) :
    fields_pre_override o = { rtt_sec := 0, ttl := 0, size := 0, up := 0 } := by
  unfold fields_pre_override at h ⊢
  cases hv : searchV6 o with
  | none =>
    rw [hv] at h
    exact v7_fields_zero o h
  | some g =>
    obtain ⟨s, t, r⟩ := g
    rw [hv] at h
    cases hx : hasSub ttlExceededChars o with
    | true =>
      simp only [hx, if_true] at h ⊢
      exact v7_fields_zero o h
    | false =>
      simp [hx] at h

lemma parse_no_override (out : String) (d : ℚ)
    (hov : (hasSub timeoutChars out.data || hasSub noRouteChars out.data) = false) :
    parse_ping_output out d =
      { rtt_sec := (fields_pre_override out.data).rtt_sec
        up := (fields_pre_override out.data).up
        ttl := (fields_pre_override out.data).ttl
        size := (fields_pre_override out.data).size
        duration := d } := by
  unfold parse_ping_output
  simp [hov]

lemma parse_up_bool (out : String) (d : ℚ) :
    (parse_ping_output out d).up = 0 ∨ (parse_ping_output out d).up = 1 := by
  unfold parse_ping_output
  by_cases h : (hasSub timeoutChars out.data || hasSub noRouteChars out.data) = true
  · simp [h]
  · simpa [h] using fields_pre_override_up out.data

/-! ## Helper lemmas: decoding captured numbers -/

lemma notDot_of_digit {c : Char} (h : isDigitChar c = true) : notDot c = true := by
  unfold notDot
  simp only [ne_eq, decide_not, Bool.not_eq_eq_eq_not, Bool.not_true, decide_eq_false_iff_not]
  intro he
  subst he
  exact absurd h (by decide)

lemma ratOfNum_split (a b : List Char) (ha : ∀ c ∈ a, isDigitChar c = true) :
    ratOfNum (a ++ '.' :: b) = (natOfDigits a : ℚ) + (natOfDigits b : ℚ) / 10 ^ b.length := by
  unfold ratOfNum
  rw [takeWhile_append_stop notDot a '.' b (fun x hx => notDot_of_digit (ha x hx)) (by decide)]
  rw [dropWhile_append_stop notDot a '.' b (fun x hx => notDot_of_digit (ha x hx)) (by decide)]

lemma ratOfNum_nodot (a : List Char) (ha : ∀ c ∈ a, isDigitChar c = true) :
    ratOfNum a = (natOfDigits a : ℚ) := by
  unfold ratOfNum
  have hd : a.dropWhile notDot = [] :=
    List.dropWhile_eq_nil_iff.mpr (fun x hx => by simp [notDot_of_digit (ha x hx)])
  have htk : a.takeWhile notDot = a :=
    List.takeWhile_eq_self_iff.mpr (fun x hx => by simp [notDot_of_digit (ha x hx)])
  rw [hd, htk]

/-! ## Claim C5 -/

/-- C5: for every output on which the dialect-A pattern matches with groups
`(s, t, r)` and that contains neither `ttl-exceeded` nor an unreachability
substring, the parser returns size = field 3, ttl = field 4 and
rtt = field 5 / 1000 seconds with reachable = true; in particular this holds
for every well-formed reply line `seq host size ttl rtt` built from digit
strings, whatever follows the line; and for every output containing
`ttl-exceeded` the dialect-A branch is suppressed, falling through to the
dialect-B-or-unreachable parser. -/
theorem c5_v6_extraction :
    (∀ (out : String) (d : ℚ) (s t r : List Char),
       searchV6 out.data = some (s, t, r) →
       hasSub ttlExceededChars out.data = false →
       hasSub timeoutChars out.data = false →
       hasSub noRouteChars out.data = false →
       parse_ping_output out d =
         { rtt_sec := (natOfDigits r : ℚ) / 1000, up := 1, ttl := natOfDigits t
           size := natOfDigits s, duration := d }) ∧
    (∀ (seq host s t r tail : List Char) (d : ℚ),
       seq ≠ [] → (∀ c ∈ seq, isDigitChar c = true) →
       host ≠ [] → (∀ c ∈ host, isHostChar c = true) →
       s ≠ [] → (∀ c ∈ s, isDigitChar c = true) →
       t ≠ [] → (∀ c ∈ t, isDigitChar c = true) →
       r ≠ [] → (∀ c ∈ r, isDigitChar c = true) →
       hasSub ttlExceededChars (v6_line seq host s t r tail) = false →
       hasSub timeoutChars (v6_line seq host s t r tail) = false →
       hasSub noRouteChars (v6_line seq host s t r tail) = false →
       parse_ping_output ⟨v6_line seq host s t r tail⟩ d =
         { rtt_sec := (natOfDigits r : ℚ) / 1000, up := 1, ttl := natOfDigits t
           size := natOfDigits s, duration := d }) ∧
    (∀ (out : String) (d : ℚ),
       hasSub ttlExceededChars out.data = true →
       parse_ping_output out d = parse_skip_v6 out d) := by
  refine ⟨?_, ?_, ?_⟩
  · intro out d s t r h6 hx ht hn
    exact parse_eval_v6 out d s t r h6 hx ht hn
  · intro seq host s t r tail d hseq hseqD hhost hhostD hs hsD hti htD hr hrD hx ht hn
    have h6 : searchV6 (String.data ⟨v6_line seq host s t r tail⟩) = some (s, t, r) := by
      exact searchV6_v6_line seq host s t r tail hseq hseqD hhost hhostD hs hsD hti htD hr hrD
    exact parse_eval_v6 _ d s t r h6 hx ht hn
  · intro out d hx
    exact parse_of_ttl_exceeded out d hx

/-- Witness for C5 at the concrete output `0 1.2.3.4 56 64 12ms`. -/
theorem c5_v6_extraction_witness :
    searchV6 "0 1.2.3.4 56 64 12ms".data = some ("56".data, "64".data, "12".data) ∧
    parse_ping_output "0 1.2.3.4 56 64 12ms" 9 =
      { rtt_sec := 12 / 1000, up := 1, ttl := 64, size := 56, duration := 9 } := by
  constructor
  · decide
  · have h := c5_v6_extraction.1 "0 1.2.3.4 56 64 12ms" 9 "56".data "64".data "12".data
      (by decide) (by decide) (by decide) (by decide)
    rw [h, show natOfDigits "12".data = 12 from by decide,
        show natOfDigits "64".data = 64 from by decide,
        show natOfDigits "56".data = 56 from by decide]
    norm_num

/-! ## Claim C6 -/

/-- C6: every output containing the literal substring `timeout` or
`no route to host` parses with reachability 0, regardless of any dialect
match present in the same text. -/
theorem c6_unreachability_override (out : String) (d : ℚ)
    (h : hasSub timeoutChars out.data = true ∨ hasSub noRouteChars out.data = true) :
    (parse_ping_output out d).up = 0 := by
  unfold parse_ping_output
  rcases h with h | h <;> simp [h]

/-- Witness for C6: an output with a valid dialect-B match and the word
`timeout` parses as unreachable. -/
theorem c6_unreachability_override_witness :
    hasSub timeoutChars "time=5ms ttl=64 timeout".data = true ∧
    (parse_ping_output "time=5ms ttl=64 timeout" 0).up = 0 :=
  ⟨by decide, c6_unreachability_override "time=5ms ttl=64 timeout" 0 (Or.inl (by decide))⟩

/-! ## Claim C9 -/

/-- C9: the `ttl-exceeded` rejection is evaluated over the whole output
text: whenever `ttl-exceeded` occurs anywhere in the output, the parser
behaves exactly like the parser with the dialect-A branch removed. -/
theorem c9_ttl_exceeded_whole_output (out : String) (d : ℚ)
    (hx : hasSub ttlExceededChars out.data = true) :
    parse_ping_output out d = parse_skip_v6 out d :=
  parse_of_ttl_exceeded out d hx

/-- Witness for C9: a clean dialect-A reply line on one line and
`ttl-exceeded` on another; the dialect-A extraction is suppressed and the
probe parses as unreachable. -/
theorem c9_ttl_exceeded_whole_output_witness :
    hasSub ttlExceededChars "0 1.2.3.4 56 64 1ms\nttl-exceeded".data = true ∧
    parse_ping_output "0 1.2.3.4 56 64 1ms\nttl-exceeded" 0 =
      parse_skip_v6 "0 1.2.3.4 56 64 1ms\nttl-exceeded" 0 ∧
    (parse_ping_output "0 1.2.3.4 56 64 1ms\nttl-exceeded" 0).up = 0 :=
  ⟨by decide, c9_ttl_exceeded_whole_output "0 1.2.3.4 56 64 1ms\nttl-exceeded" 0 (by decide),
    by decide⟩

/-! ## Claim C7 -/

/-- C7 counterexample: the output `time=12.5ms ttl=64 timeout` satisfies the
claim's hypotheses (no dialect-A match, `time=` present) but parses with
reachability 0 because of the `timeout` override. -/
theorem c7_counterexample : ¬ claimC7 := by
  intro h
  have hinst := h "time=12.5ms ttl=64 timeout" 0 "12.5".data (Or.inl (by decide)) (by decide)
  have hup : (parse_ping_output "time=12.5ms ttl=64 timeout" 0).up = 0 := by decide
  rw [hinst] at hup
  exact absurd hup (by decide)

/-- C7 amended: when additionally the output contains neither `timeout` nor
`no route to host`, the dialect-B branch reports rtt = `time=` value / 1000,
ttl from `ttl=` (default 0), size = 56 and reachable = 1; and the spec's
concrete instance `time=12.5ms ttl=64` yields rtt = 1/80 s, ttl = 64,
size = 56, reachable = 1. -/
theorem c7_v7_extraction :
    (∀ (out : String) (d : ℚ) (num : List Char),
       (searchV6 out.data = none ∨ hasSub ttlExceededChars out.data = true) →
       searchTime out.data = some num →
       hasSub timeoutChars out.data = false →
       hasSub noRouteChars out.data = false →
       parse_ping_output out d =
         { rtt_sec := ratOfNum num / 1000, up := 1
           ttl := ((searchTtl out.data).map natOfDigits).getD 0
           size := 56, duration := d }) ∧
    parse_ping_output "time=12.5ms ttl=64" 0 =
      { rtt_sec := 1 / 80, up := 1, ttl := 64, size := 56, duration := 0 } := by
  constructor
  · intro out d num h6 h7 ht hn
    exact parse_eval_v7 out d num h6 h7 ht hn
  · have h := parse_eval_v7 "time=12.5ms ttl=64" 0 "12.5".data (Or.inl (by decide))
      (by decide) (by decide) (by decide)
    rw [h]
    have h1 : ((searchTtl "time=12.5ms ttl=64".data).map natOfDigits).getD 0 = 64 := by decide
    have hr : ratOfNum "12.5".data = 12 + (5 : ℚ) / 10 ^ (1 : ℕ) := by
      rw [show "12.5".data = "12".data ++ '.' :: "5".data from by decide]
      rw [ratOfNum_split "12".data "5".data (by decide)]
      rw [show natOfDigits "12".data = 12 from by decide,
          show natOfDigits "5".data = 5 from by decide]
      norm_num
    rw [h1, hr]
    norm_num

/-- Witness for the amended C7 at the concrete output
`reply from target time=3ms`. -/
theorem c7_v7_extraction_witness :
    searchTime "reply from target time=3ms".data = some "3".data ∧
    parse_ping_output "reply from target time=3ms" 1 =
      { rtt_sec := ratOfNum "3".data / 1000, up := 1
        ttl := ((searchTtl "reply from target time=3ms".data).map natOfDigits).getD 0
        size := 56, duration := 1 } :=
  ⟨by decide, c7_v7_extraction.1 "reply from target time=3ms" 1 "3".data
    (Or.inl (by decide)) (by decide) (by decide) (by decide)⟩

/-! ## Claim C1 -/

/-- C1 counterexample: `time=5ms timeout` parses with reachability 0 (the
`timeout` override) yet keeps size = 56 from the dialect-B branch. -/
theorem c1_counterexample : ¬ claimC1 := by
  intro h
  have hup : (parse_ping_output "time=5ms timeout" 0).up = 0 := by decide
  have hsz : (parse_ping_output "time=5ms timeout" 0).size = 56 := by decide
  obtain ⟨-, -, h3⟩ := h "time=5ms timeout" 0 hup
  rw [hsz] at h3
  exact absurd h3 (by decide)

/-- C1 amended: a reachability-0 result has all-zero rtt/ttl/size unless
the output contains an unreachability substring (`timeout` /
`no route to host`), in which case the fields parsed before the override
are retained; the transport-failure result is always all-zero. -/
theorem c1_zero_fields_on_unreachable :
    (∀ (out : String) (d : ℚ),
       (parse_ping_output out d).up = 0 →
       ((parse_ping_output out d).rtt_sec = 0 ∧
        (parse_ping_output out d).ttl = 0 ∧
        (parse_ping_output out d).size = 0) ∨
       (hasSub timeoutChars out.data = true ∨ hasSub noRouteChars out.data = true)) ∧
    (∀ d : ℚ, error_result d =
       { rtt_sec := 0, up := 0, ttl := 0, size := 0, duration := d }) := by
  constructor
  · intro out d hup
    cases hov : (hasSub timeoutChars out.data || hasSub noRouteChars out.data) with
    | true => exact Or.inr (Bool.or_eq_true_iff.mp hov)
    | false =>
      left
      have hp := parse_no_override out d hov
      rw [hp] at hup ⊢
      have hz := fields_pre_override_zero out.data hup
      rw [hz]
      exact ⟨rfl, rfl, rfl⟩
  · intro d
    rfl

/-- Witness for the amended C1 at an output matching neither dialect. -/
theorem c1_zero_fields_on_unreachable_witness :
    (parse_ping_output "no reply" 0).up = 0 ∧
    (((parse_ping_output "no reply" 0).rtt_sec = 0 ∧
      (parse_ping_output "no reply" 0).ttl = 0 ∧
      (parse_ping_output "no reply" 0).size = 0) ∨
     (hasSub timeoutChars "no reply".data = true ∨
      hasSub noRouteChars "no reply".data = true)) :=
  ⟨by decide, c1_zero_fields_on_unreachable.1 "no reply" 0 (by decide)⟩

/-! ## Claim C3 -/

/-- C3 counterexample: the claim fails already for sample count 7 — the
command built for address `1.2.3.4` is `/ping 1.2.3.4 count=1` and does not
contain the digit 7 (nor any interval parameter). -/
theorem c3_counterexample : ¬ claimC3 := by
  intro h
  obtain ⟨-, h2, -⟩ := h "1.2.3.4" 7 1 (by norm_num)
  exact absurd h2 (by decide)

/-- C3 amended: the command is exactly `/ping <address> count=1`: it
contains the resolved address and the fixed sample count `count=1`; the
sample count is hard-coded to 1 and no inter-packet interval parameter is
emitted at all. -/
theorem c3_command_format :
    (∀ ip : String,
       ping_command ip = "/ping " ++ ip ++ " count=1" ∧
       hasSub ip.data (ping_command ip).data = true ∧
       hasSub "count=1".data (ping_command ip).data = true) ∧
    hasSub "interval".data (ping_command "1.2.3.4").data = false := by
  constructor
  · intro ip
    have hd : (ping_command ip).data = "/ping ".data ++ (ip.data ++ " count=1".data) := by
      unfold ping_command
      rw [String.data_append, String.data_append, List.append_assoc]
    refine ⟨rfl, ?_, ?_⟩
    · rw [hd]
      exact hasSub_append_right _ _ _
        (hasSub_of_leadsWith _ _ (leadsWith_refl_append ip.data " count=1".data))
    · rw [hd, show " count=1".data = ' ' :: "count=1".data from by decide]
      exact hasSub_append_right _ _ _
        (hasSub_append_right _ _ _ (hasSub_cons_of _ _ _ (hasSub_self _)))
  · decide

/-! ## Claim C4 -/

/-- C4 counterexample: a burst output with one matched reply line and the
footer `sent=5 received=0 packet-loss=100%` is parsed as reachable even
though the footer's received count is 0, refuting the claim that
reachability is derived from the footer; the parser has no burst mode. -/
theorem c4_counterexample : ¬ claimC4 := by
  intro h
  have hinst := h "0 9.9.9.9 56 64 1ms\nsent=5 received=0 packet-loss=100%" 0 0 (by decide)
  have hup : (parse_ping_output "0 9.9.9.9 56 64 1ms\nsent=5 received=0 packet-loss=100%" 0).up
      = 1 := by decide
  exact absurd (hinst.mp hup) (by decide)

/-- C4 amended: the parser is single-sample: for every output beginning
with the reply line `0 9.9.9.9 56 64 1ms` (and free of override
substrings), the result is that single line's (rtt, ttl, size) with
reachable = 1, whatever reply lines or summary footer follow. -/
theorem c4_single_sample (rest : List Char) (d : ℚ)
    (hx : hasSub ttlExceededChars ("0 9.9.9.9 56 64 1ms".data ++ rest) = false)
    (ht : hasSub timeoutChars ("0 9.9.9.9 56 64 1ms".data ++ rest) = false)
    (hn : hasSub noRouteChars ("0 9.9.9.9 56 64 1ms".data ++ rest) = false) :
    parse_ping_output ⟨"0 9.9.9.9 56 64 1ms".data ++ rest⟩ d =
      { rtt_sec := 1 / 1000, up := 1, ttl := 64, size := 56, duration := d } := by
  have hline : "0 9.9.9.9 56 64 1ms".data ++ rest
      = v6_line "0".data "9.9.9.9".data "56".data "64".data "1".data rest := by
    simp [v6_line]
  have h6 : searchV6 ((⟨"0 9.9.9.9 56 64 1ms".data ++ rest⟩ : String)).data
      = some ("56".data, "64".data, "1".data) := by
    show searchV6 ("0 9.9.9.9 56 64 1ms".data ++ rest) = _
    rw [hline]
    exact searchV6_v6_line _ _ _ _ _ _ (by decide) (by decide) (by decide) (by decide)
      (by decide) (by decide) (by decide) (by decide) (by decide) (by decide)
  have h := parse_eval_v6 ⟨"0 9.9.9.9 56 64 1ms".data ++ rest⟩ d
    "56".data "64".data "1".data h6 hx ht hn
  rw [h, show natOfDigits "1".data = 1 from by decide,
      show natOfDigits "64".data = 64 from by decide,
      show natOfDigits "56".data = 56 from by decide]
  norm_num

/-- Witness for the amended C4: the spec's burst example — five reply lines
with rtts 1..5 ms and a complete footer — parses to the first line's
sample alone. -/
theorem c4_single_sample_witness :
    parse_ping_output
      ⟨"0 9.9.9.9 56 64 1ms".data ++
        "\n1 9.9.9.9 56 64 2ms\n2 9.9.9.9 56 64 3ms\n3 9.9.9.9 56 64 4ms\n4 9.9.9.9 56 64 5ms\nsent=5 received=5 packet-loss=0%".data⟩ 0 =
      { rtt_sec := 1 / 1000, up := 1, ttl := 64, size := 56, duration := 0 } :=
  c4_single_sample
    "\n1 9.9.9.9 56 64 2ms\n2 9.9.9.9 56 64 3ms\n3 9.9.9.9 56 64 4ms\n4 9.9.9.9 56 64 5ms\nsent=5 received=5 packet-loss=0%".data
    0 (by decide) (by decide) (by decide)

/-! ## Claim C2 -/

/-- C2: a transport failure (the `ConnectionError` path) makes
`ping_target` return the `_error_result` dictionary — reachability 0, all
numeric fields 0 and duration the elapsed time — and in every execution
the returned result is well-formed (`up` is 0 or 1); no failure escapes. -/
theorem c2_transport_failure_handled :
    (∀ (p : PoolParams) (env : ExecEnv) (durFail durOk : ℚ),
       exec_outcome p env = .error () →
       ping_target p env durFail durOk =
         { rtt_sec := 0, up := 0, ttl := 0, size := 0, duration := durFail }) ∧
    (∀ (p : PoolParams) (env : ExecEnv) (durFail durOk : ℚ),
       (ping_target p env durFail durOk).up = 0 ∨
       (ping_target p env durFail durOk).up = 1) := by
  constructor
  · intro p env durFail durOk h
    unfold ping_target
    rw [h]
    rfl
  · intro p env durFail durOk
    unfold ping_target
    cases h : exec_outcome p env with
    | error e => left; rfl
    | ok outErr => exact parse_up_bool (stripString outErr.1) durOk

/-- Witness for C2: a pool whose connect attempts all fail (no alternate
host) yields the error result with the elapsed duration. -/
theorem c2_transport_failure_handled_witness :
    exec_outcome ⟨"router", none, "user", "pw", 22, 10⟩ ⟨none, false, false, "", ""⟩
      = .error () ∧
    ping_target ⟨"router", none, "user", "pw", 22, 10⟩ ⟨none, false, false, "", ""⟩ 3 4 =
      { rtt_sec := 0, up := 0, ttl := 0, size := 0, duration := 3 } :=
  ⟨rfl, c2_transport_failure_handled.1 ⟨"router", none, "user", "pw", 22, 10⟩
    ⟨none, false, false, "", ""⟩ 3 4 rfl⟩

/-! ## Claim C8 -/

/-- C8: whenever the session the pool would hand out reports inactive, the
caller instead receives a freshly constructed session carrying the pool's
host, alternate host, user, password and SSH port. -/
theorem c8_pool_replaces_inactive (p : PoolParams)
    (dequeued : Option MikroTikSSHConnection)
    (h : is_active (dequeued.getD (create_connection p)) = false) :
    acquire_connection p dequeued = create_connection p ∧
    (acquire_connection p dequeued).host = p.host ∧
    (acquire_connection p dequeued).alt_host = p.alt_host ∧
    (acquire_connection p dequeued).user = p.user ∧
    (acquire_connection p dequeued).password = p.password ∧
    (acquire_connection p dequeued).port = p.ssh_port := by
  simp only [acquire_connection]
  rw [h]
  simp [create_connection]

/-- Witness for C8: a dead session dequeued from the pool (its transport
reports inactive) is replaced by a fresh one with the pool's parameters. -/
theorem c8_pool_replaces_inactive_witness :
    is_active ((some (⟨"router", some "alt", "user", "pw", 22, some false⟩ :
        MikroTikSSHConnection)).getD
      (create_connection ⟨"router", some "alt", "user", "pw", 22, 5⟩)) = false ∧
    acquire_connection ⟨"router", some "alt", "user", "pw", 22, 5⟩
        (some ⟨"router", some "alt", "user", "pw", 22, some false⟩) =
      create_connection ⟨"router", some "alt", "user", "pw", 22, 5⟩ :=
  ⟨by decide,
    (c8_pool_replaces_inactive ⟨"router", some "alt", "user", "pw", 22, 5⟩
      (some ⟨"router", some "alt", "user", "pw", 22, some false⟩) (by decide)).1⟩

/-! ## Claim C10 -/

/-- C10: the parsed fields (up, rtt, ttl, size) of a probe depend only on
the command's standard output: two successful executions with equal stdout
produce equal parsed fields, whatever their stderr, pool state, connect
outcomes or timings. -/
theorem c10_result_depends_only_on_stdout
    (p1 p2 : PoolParams) (env1 env2 : ExecEnv)
    (durFail1 durOk1 durFail2 durOk2 : ℚ) (out err1 err2 : String)
    (h1 : exec_outcome p1 env1 = .ok (out, err1))
    (h2 : exec_outcome p2 env2 = .ok (out, err2)) :
    (ping_target p1 env1 durFail1 durOk1).up = (ping_target p2 env2 durFail2 durOk2).up ∧
    (ping_target p1 env1 durFail1 durOk1).rtt_sec
      = (ping_target p2 env2 durFail2 durOk2).rtt_sec ∧
    (ping_target p1 env1 durFail1 durOk1).ttl = (ping_target p2 env2 durFail2 durOk2).ttl ∧
    (ping_target p1 env1 durFail1 durOk1).size = (ping_target p2 env2 durFail2 durOk2).size := by
  unfold ping_target
  rw [h1, h2]
  exact ⟨rfl, rfl, rfl, rfl⟩

/-- Witness for C10: two executions differing in stderr, pool parameters
and timings but sharing the same stdout parse to the same fields. -/
theorem c10_result_depends_only_on_stdout_witness :
    exec_outcome ⟨"r1", none, "u1", "p1", 22, 10⟩ ⟨none, true, false, "time=5ms", "errA"⟩
      = .ok ("time=5ms", "errA") ∧
    (ping_target ⟨"r1", none, "u1", "p1", 22, 10⟩ ⟨none, true, false, "time=5ms", "errA"⟩ 1 2).up
      = (ping_target ⟨"r2", some "alt", "u2", "p2", 2222, 3⟩
          ⟨none, true, true, "time=5ms", "errB"⟩ 5 6).up :=
  ⟨rfl,
    (c10_result_depends_only_on_stdout
      ⟨"r1", none, "u1", "p1", 22, 10⟩ ⟨"r2", some "alt", "u2", "p2", 2222, 3⟩
      ⟨none, true, false, "time=5ms", "errA"⟩ ⟨none, true, true, "time=5ms", "errB"⟩
      1 2 5 6 "time=5ms" "errA" "errB" rfl rfl).1⟩

end MikrotikPingExporter
